import Mathlib

/-
Verification of the MCM3000 z-stage motion controller
(src/braman/controller/z_stage/z_controllers/mcm3000_controller.py).

Shallow embedding conventions:
* Python floats (micrometre values, conversion factors) are modelled as ℚ,
  encoder counts as ℤ.
* Python truthiness tests on values that may be None or 0 / 0.0 are embedded
  by explicit truthiness functions, mirroring the source's `if x:` tests.
* Device interaction is modelled explicitly: composite operations thread a
  world holding the channel state, the device's encoder position, and the
  trace of command frames written to the wire.  Exceptions (failed asserts)
  become `Except.error`; mutations performed before an exception are kept in
  the returned world, as in Python.
-/

/-- Error outcomes of the controller operations (Python exceptions). -/
inductive Err where
  | outOfRange
  | protocolMismatch
  | typeMismatch
  | configMismatch
  | badChannel
  | fuelOut
deriving DecidableEq, Repr

/-- Command frames written to the serial port.  A query frame is the
position request (0x0A 0x04 ...); a move frame is the move-to-encoder
request (0x53 0x04 ...) carrying its target. -/
inductive Cmd where
  | query
  | move (target : ℤ)
deriving DecidableEq, Repr

def exceptDecEq {ε α : Type} [DecidableEq ε] [DecidableEq α] :
    DecidableEq (Except ε α)
  | Except.error a, Except.error b =>
    if h : a = b then isTrue (h ▸ rfl)
    else isFalse (fun hc => h (by injection hc))
  | Except.error _, Except.ok _ => isFalse (fun hc => Except.noConfusion hc)
  | Except.ok _, Except.error _ => isFalse (fun hc => Except.noConfusion hc)
  | Except.ok a, Except.ok b =>
    if h : a = b then isTrue (h ▸ rfl)
    else isFalse (fun hc => h (by injection hc))

instance {ε α : Type} [DecidableEq ε] [DecidableEq α] :
    DecidableEq (Except ε α) := exceptDecEq

attribute [local semireducible] Rat.mul Rat.add Rat.sub Rat.inv Rat.ofScientific

/-- Truncation toward zero, Python's `int(...)` applied to a float. -/
def truncQ (q : ℚ) : ℤ := if 0 ≤ q then ⌊q⌋ else -⌊-q⌋

/-- Python truthiness of an optional integer (`if self._pending_encoder_value[ch]:`
is False both for None and for 0). -/
def optIntTruthy : Option ℤ → Bool
  | none => false
  | some v => decide (v ≠ 0)

/-- Python truthiness of a float (`if x:` is False for 0.0). -/
def qTruthy (q : ℚ) : Bool := decide (q ≠ 0)

/-- Python truthiness of an optional float (False for None and for 0.0). -/
def optQTruthy : Option ℚ → Bool
  | none => false
  | some v => decide (v ≠ 0)

/-- Per-channel state of the controller for a channel whose stage is bound,
in the list-shaped steady state established by `__init__`:
the direction flag, the conversion factor (um per count), the physical
limits, the scan points, the last confirmed encoder value and the pending
target encoder value, plus the controller's `verbose` flag. -/
structure Chan where
  reversed : Bool
  conv : ℚ
  lowerLim : ℚ
  upperLim : ℚ
  lowestScan : ℚ
  highestScan : ℚ
  current : ℤ
  pending : Option ℤ
  verbose : Bool
deriving DecidableEq, Repr

/-- Source `_um_from_encoder_value` (lines 345-359): multiply by the
conversion factor, negate when the axis is reversed, add 0 (the source's
negative-zero normalization, a no-op on ℚ). -/
def um_from_encoder_value (c : Chan) (encoder_value : ℤ) : ℚ :=
  let um := (encoder_value : ℚ) * c.conv
  (if c.reversed then -um else um) + 0

/-- Source `_encoder_value_from_um` (lines 361-375): true-divide by the
conversion factor, truncate toward zero with `int(...)`, negate when the
axis is reversed, add 0. -/
def encoder_value_from_um (c : Chan) (um : ℚ) : ℤ :=
  let encoder_value := truncQ (um / c.conv)
  (if c.reversed then -encoder_value else encoder_value) + 0

/-- Final value of the polling loop of `_finish_move` (lines 324-336): the
first read `fst` is compared with the pending target `p`; on mismatch the
loop keeps reading (`rest` are the subsequent reads available before the
6-second deadline); it stops at the first read equal to `p`, or at the last
read when the deadline elapses (the read list is exhausted). -/
def lastPoll (p fst : ℤ) (rest : List ℤ) : ℤ :=
  if fst = p then fst
  else
    match rest with
    | [] => fst
    | r :: rs => lastPoll p r rs

/-- Number of position queries the polling loop performs. -/
def pollCount (p fst : ℤ) (rest : List ℤ) : ℕ :=
  if fst = p then 1
  else
    match rest with
    | [] => 1
    | r :: rs => 1 + pollCount p r rs

/-- Source `_finish_move` (lines 307-343): a no-op when no move is pending;
otherwise poll the encoder until it equals the pending target or the
deadline elapses, then record the last read as the confirmed encoder value
and clear the pending target.  Returns the new channel state and the trace
of query frames sent. -/
def finish_move (c : Chan) (fst : ℤ) (rest : List ℤ) : Chan × List Cmd :=
  match c.pending with
  | none => (c, [])
  | some p =>
    ({ c with current := lastPoll p fst rest, pending := none },
     List.replicate (pollCount p fst rest) Cmd.query)

/-- Source `_move_to_encoder_value` (lines 281-305): if a pending target is
outstanding (`is not None` — this test is not a truthiness test), first
resolve it with `_finish_move`; then write the move frame, record the new
pending target, and, when blocking, resolve the new move.  `fst1/rest1` are
the device reads available to the pre-resolution, `fst2/rest2` those for the
blocking resolution. -/
def move_to_encoder_value (c : Chan) (tgt : ℤ) (block : Bool)
    (fst1 : ℤ) (rest1 : List ℤ) (fst2 : ℤ) (rest2 : List ℤ) : Chan × List Cmd :=
  let pre := if c.pending.isSome then finish_move c fst1 rest1 else (c, [])
  let c2 : Chan := { pre.1 with pending := some tgt }
  let post := if block then finish_move c2 fst2 rest2 else (c2, [])
  (post.1, pre.2 ++ [Cmd.move tgt] ++ post.2)

/-- World threaded through the composite operations: the channel state, the
device's actual encoder position (ideal device: a move frame settles the
device at its target), and the trace of frames written to the wire. -/
structure W where
  ch : Chan
  dpos : ℤ
  tr : List Cmd
deriving DecidableEq, Repr

/-- One position query exchange (`_get_encoder_value`): writes the query
frame and returns the device position. -/
def queryDev (w : W) : W × ℤ :=
  ({ w with tr := w.tr ++ [Cmd.query] }, w.dpos)

/-- Writing a move frame; the ideal device settles at the target. -/
def writeMove (w : W) (t : ℤ) : W :=
  { w with tr := w.tr ++ [Cmd.move t], dpos := t }

/-- Source `_finish_move` against the ideal device: a no-op when idle;
otherwise the first read already reports the settled device position, so the
loop performs a single query (on a mismatching device position this is the
deadline instance with one read) and records it. -/
def finish_move_ideal (w : W) : W :=
  match w.ch.pending with
  | none => w
  | some p =>
    let q := queryDev w
    { q.1 with ch := { q.1.ch with current := lastPoll p q.2 [], pending := none } }

/-- Source `_move_to_encoder_value` against the ideal device. -/
def move_to_encoder_value_ideal (w : W) (tgt : ℤ) (block : Bool) : W :=
  let w1 := if w.ch.pending.isSome then finish_move_ideal w else w
  let w2 := writeMove w1 tgt
  let w3 : W := { w2 with ch := { w2.ch with pending := some tgt } }
  if block then finish_move_ideal w3 else w3

/-- Source `get_position_um` (lines 401-420): query the encoder and convert. -/
def get_position_um_ideal (w : W) : W × ℚ :=
  let q := queryDev w
  (q.1, um_from_encoder_value w.ch q.2)

/-- The minimum number of encoder counts threshold, `self._min_encoder_motion`
(line 129). -/
def min_encoder_motion : ℤ := 5

/-- The absolute target encoder value computed by `legalize_move_um`
(lines 526-531): the requested um converted to counts and, for a relative
move, added to the pending encoder value when that is truthy (note: a
truthiness test, so a pending value of 0 is passed over) and otherwise to
the current encoder value. -/
def absTarget (c : Chan) (mv : ℚ) (rel : Bool) : ℤ :=
  let t := encoder_value_from_um c mv
  if rel then
    if optIntTruthy c.pending then t + c.pending.getD 0 else t + c.current
  else t

/-- The encoder value `_check_min_motion` (lines 388-397) compares the target
against: the pending encoder value when truthy, else the current encoder
value.  The two source branches are structurally identical apart from this
base, so the embedding factors it out. -/
def minBase (c : Chan) : ℤ :=
  if optIntTruthy c.pending then c.pending.getD 0 else c.current

/-- Active lower bound of `legalize_move_um` (lines 537-540): the lowest scan
point when truthy (a truthiness test, so a scan point of 0.0 falls back),
else the physical lower limit. -/
def activeLower (c : Chan) : ℚ :=
  if qTruthy c.lowestScan then c.lowestScan else c.lowerLim

/-- Active upper bound of `legalize_move_um` (lines 542-545). -/
def activeUpper (c : Chan) : ℚ :=
  if qTruthy c.highestScan then c.highestScan else c.upperLim

/-- The bounds assertion of `legalize_move_um` (lines 547-552), with the
inequalities reversed for a reversed axis. -/
def withinBounds (c : Chan) (u : ℚ) : Bool :=
  if c.reversed then decide (activeLower c ≥ u ∧ u ≥ activeUpper c)
  else decide (activeLower c ≤ u ∧ u ≤ activeUpper c)

/-- Source `_check_min_motion` (lines 377-398), with the recursive throwaway
move `self.move_um(channel, 10, relative=True, block=True, verbose=False)`
abstracted as `nudge`.  Returns False (no motion needed) when the target
equals the base; performs the nudge first when the delta is non-zero but at
most `_min_encoder_motion`; returns True otherwise. -/
def check_min_motion_core (nudge : W → W × Except Err (Option ℚ)) (w : W)
    (tgt : ℤ) : W × Except Err Bool :=
  let base := minBase w.ch
  if tgt = base then (w, Except.ok false)
  else if |tgt - base| ≤ min_encoder_motion then
    let r := nudge w
    match r.2 with
    | Except.error e => (r.1, Except.error e)
    | Except.ok _ => (r.1, Except.ok true)
  else (w, Except.ok true)

/-- Source `legalize_move_um` (lines 512-557) with the nudge abstracted:
compute the absolute target, run the minimum-motion check (None is returned
when it reports no motion needed), recompute the um value realized by the
target encoder value, and assert it lies within the active bounds. -/
def legalize_move_um_core (nudge : W → W × Except Err (Option ℚ)) (w : W)
    (mv : ℚ) (rel : Bool) : W × Except Err (Option ℚ) :=
  let tgt := absTarget w.ch mv rel
  let r := check_min_motion_core nudge w tgt
  match r.2 with
  | Except.error e => (r.1, Except.error e)
  | Except.ok false => (r.1, Except.ok none)
  | Except.ok true =>
    let w1 := r.1
    let targetUm := um_from_encoder_value w1.ch tgt
    if withinBounds w1.ch targetUm then (w1, Except.ok (some targetUm))
    else (w1, Except.error Err.outOfRange)

/-- Source `move_um` (lines 559-593) with the nudge abstracted: legalize;
when the result is falsy (None, or the legalized value 0.0 — the source
tests `if not legal_move_um:`) return None after the verbose position print
(which performs a device query); otherwise convert back to counts, issue the
move, resolve when blocking, and return the legalized value. -/
def move_um_core (nudge : W → W × Except Err (Option ℚ)) (w : W) (mv : ℚ)
    (rel block vb : Bool) : W × Except Err (Option ℚ) :=
  let r := legalize_move_um_core nudge w mv rel
  match r.2 with
  | Except.error e => (r.1, Except.error e)
  | Except.ok legal =>
    let w1 := r.1
    if optQTruthy legal then
      let v := legal.getD 0
      let enc := encoder_value_from_um w1.ch v
      let w2 := move_to_encoder_value_ideal w1 enc block
      let w3 := if block then finish_move_ideal w2 else w2
      let w4 := if vb then (queryDev w3).1 else w3
      (w4, Except.ok (some v))
    else
      let w2 := if w1.ch.verbose then (queryDev w1).1 else w1
      (w2, Except.ok none)

/-- Source `move_um`, tying the recursive knot: the nudge inside
`_check_min_motion` is itself `move_um(channel, 10, relative=True,
block=True, verbose=False)`; `fuel` bounds the nudge recursion depth. -/
def move_um : ℕ → W → ℚ → Bool → Bool → Bool → W × Except Err (Option ℚ)
  | 0, w, _, _, _, _ => (w, Except.error Err.fuelOut)
  | fuel + 1, w, mv, rel, block, vb =>
    move_um_core (fun w' => move_um fuel w' 10 true true false) w mv rel block vb

/-- Source `_check_min_motion` with its actual nudge. -/
def check_min_motion (fuel : ℕ) (w : W) (tgt : ℤ) : W × Except Err Bool :=
  check_min_motion_core (fun w' => move_um fuel w' 10 true true false) w tgt

/-- Source `legalize_move_um` with its actual nudge. -/
def legalize_move_um (fuel : ℕ) (w : W) (mv : ℚ) (rel : Bool) :
    W × Except Err (Option ℚ) :=
  legalize_move_um_core (fun w' => move_um fuel w' 10 true true false) w mv rel

/-- Source `move_zero` (lines 595-609): `move_um(channel, 0, relative=False,
block=block)`. -/
def move_zero (fuel : ℕ) (w : W) (block : Bool) : W × Except Err (Option ℚ) :=
  move_um fuel w 0 false block false

/-- Little-endian value of four bytes (the last four bytes of the 12-byte
position response), `int.from_bytes(response[-4:], byteorder='little')`
before sign interpretation.  Each argument is reduced mod 256 because a wire
byte holds eight bits. -/
def leUnsigned4 (b0 b1 b2 b3 : ℕ) : ℕ :=
  b0 % 256 + 256 * (b1 % 256) + 256 ^ 2 * (b2 % 256) + 256 ^ 3 * (b3 % 256)

/-- Signed 32-bit interpretation (`signed=True`) of a value below 2^32. -/
def toSigned32 (n : ℕ) : ℤ :=
  if n % 2 ^ 32 < 2 ^ 31 then ((n % 2 ^ 32 : ℕ) : ℤ)
  else ((n % 2 ^ 32 : ℕ) : ℤ) - 2 ^ 32

/-- Source `_get_encoder_value` (lines 206-215), decoding part: the 12-byte
response's byte 6 must echo the requested internal channel index
(`assert response[6:7] == channel_byte`); on success the encoder value is
the last four bytes read little-endian signed. -/
def decode_position_response (resp : List ℕ) (chIdx : ℕ) : Except Err ℤ :=
  if resp.getD 6 0 % 256 = chIdx % 256 then
    Except.ok (toSigned32 (leUnsigned4 (resp.getD 8 0) (resp.getD 9 0)
      (resp.getD 10 0) (resp.getD 11 0)))
  else Except.error Err.protocolMismatch

/-- One read-and-record step of `_finish_move` driven by a raw 12-byte
response frame: when a move is pending, decode the response; a channel-echo
mismatch raises before `self._current_encoder_value[...]` is assigned, so no
updated state is produced; on a match the resolution records the read. -/
def finish_move_resp (c : Chan) (chIdx : ℕ) (resp : List ℕ) :
    Except Err (Chan × List Cmd) :=
  match c.pending with
  | none => Except.ok (c, [])
  | some _ =>
    match decode_position_response resp chIdx with
    | Except.error e => Except.error e
    | Except.ok v => Except.ok (finish_move c v [])

/-- Three-slot container, one slot per channel (the source keeps one list of
length 3 per attribute). -/
structure Triple (α : Type) where
  s0 : α
  s1 : α
  s2 : α
deriving DecidableEq, Repr

def Triple.get {α : Type} (t : Triple α) (i : Fin 3) : α :=
  match i with
  | ⟨0, _⟩ => t.s0
  | ⟨1, _⟩ => t.s1
  | ⟨2, _⟩ => t.s2

/-- A Python attribute that normally holds the per-channel list but, after
the faulty whole-attribute assignments in `set_stage_limit_um` (lines 447,
451) and `set_retract_point_um` (line 507), may hold a bare float. -/
inductive ScanAttr where
  | list3 (t : Triple (Option ℚ))
  | scalar (q : ℚ)
deriving DecidableEq, Repr

/-- Indexing the attribute, `self._stage_xxx[idx]`: fails when the attribute
has been replaced by a float (a float is not subscriptable). -/
def ScanAttr.index : ScanAttr → Fin 3 → Except Err (Option ℚ)
  | ScanAttr.list3 t, i => Except.ok (t.get i)
  | ScanAttr.scalar _, _ => Except.error Err.typeMismatch

/-- Python comparison of two such attribute values at the only comparison
site (`set_stage_limit_um` lines 455, 458).  There the right operand has
just been assigned a scalar, so a list operand makes the comparison raise
(list versus float; element-wise None comparison likewise raises). -/
def ScanAttr.pyLt : ScanAttr → ScanAttr → Except Err Bool
  | ScanAttr.scalar a, ScanAttr.scalar b => Except.ok (decide (a < b))
  | _, _ => Except.error Err.typeMismatch

def ScanAttr.pyGt : ScanAttr → ScanAttr → Except Err Bool
  | ScanAttr.scalar a, ScanAttr.scalar b => Except.ok (decide (a > b))
  | _, _ => Except.error Err.typeMismatch

/-- Controller-level state for the limit and retract operations: per-channel
immutable configuration (direction, conversion, physical limits; None on an
unbound channel) and the three attributes that the faulty assignments can
replace wholesale. -/
structure Ctrl where
  reversed : Triple Bool
  conv : Triple (Option ℚ)
  lowerLim : Triple (Option ℚ)
  upperLim : Triple (Option ℚ)
  lowestScanA : ScanAttr
  highestScanA : ScanAttr
  retractA : ScanAttr
deriving DecidableEq, Repr

/-- Source `get_position_um` for the limit functions: `_send` asserts the
stage is bound, then the reported encoder value `posRead` is converted
(`_um_from_encoder_value`). -/
def get_position_um_ctrl (ct : Ctrl) (i : Fin 3) (posRead : ℤ) : Except Err ℚ :=
  match ct.conv.get i with
  | none => Except.error Err.configMismatch
  | some cv =>
    let um := (posRead : ℚ) * cv
    Except.ok ((if ct.reversed.get i then -um else um) + 0)

/-- Source `set_stage_limit_um` (lines 422-460): resolve the candidate limit
(the explicit value when truthy, else the current position read from the
device), assert it lies within the physical limits (inequalities flipped for
a reversed axis), then assign — note the source assigns the scalar to the
WHOLE attribute (`self._stage_lowest_scan_point_um = target_limit_um`), not
to the channel's slot.  In the upper-limit branch the source then compares
the retract attribute with the freshly assigned scalar and, if the retract
point is now less restrictive, calls `self.set_retract_point_um(self,
channel, ...)` — passing the controller itself as the channel, whose
availability assert fails. -/
def set_stage_limit_um (ct : Ctrl) (i : Fin 3) (lower_limit : Bool)
    (limit_um : Option ℚ) (posRead : ℤ) : Except Err (Ctrl × ℚ) :=
  let tl? : Except Err ℚ :=
    if optQTruthy limit_um then Except.ok (limit_um.getD 0)
    else get_position_um_ctrl ct i posRead
  match tl? with
  | Except.error e => Except.error e
  | Except.ok tl =>
    match ct.lowerLim.get i, ct.upperLim.get i with
    | some lo, some hi =>
      let okRange := if ct.reversed.get i then decide (lo ≥ tl ∧ tl ≥ hi)
                     else decide (lo ≤ tl ∧ tl ≤ hi)
      if okRange then
        if lower_limit then Except.ok ({ ct with lowestScanA := ScanAttr.scalar tl }, tl)
        else
          let ct1 : Ctrl := { ct with highestScanA := ScanAttr.scalar tl }
          let cmp := if ct1.reversed.get i then ScanAttr.pyLt ct1.retractA ct1.highestScanA
                     else ScanAttr.pyGt ct1.retractA ct1.highestScanA
          match cmp with
          | Except.error e => Except.error e
          | Except.ok true => Except.error Err.badChannel
          | Except.ok false => Except.ok (ct1, tl)
      else Except.error Err.outOfRange
    | _, _ => Except.error Err.typeMismatch

/-- Source `set_retract_point_um` (lines 479-510): resolve the target (the
explicit value when truthy, plus the current position when relative; the
current position when falsy), then assert — with the direction branches the
REVERSE of those of `set_stage_limit_um`: the reversed axis requires
`lowest <= target <= highest`, the non-reversed axis requires
`lowest >= target >= highest` (lines 501-506) — and assign the scalar to the
whole retract attribute. -/
def set_retract_point_um (ct : Ctrl) (i : Fin 3) (retract_um_pos : Option ℚ)
    (relative : Bool) (posRead : ℤ) : Except Err (Ctrl × ℚ) :=
  let t? : Except Err ℚ :=
    if optQTruthy retract_um_pos then
      if relative then
        match get_position_um_ctrl ct i posRead with
        | Except.error e => Except.error e
        | Except.ok p => Except.ok (retract_um_pos.getD 0 + p)
      else Except.ok (retract_um_pos.getD 0)
    else get_position_um_ctrl ct i posRead
  match t? with
  | Except.error e => Except.error e
  | Except.ok t =>
    match ct.lowestScanA.index i, ct.highestScanA.index i with
    | Except.ok (some lo), Except.ok (some hi) =>
      let okRange := if ct.reversed.get i then decide (lo ≤ t ∧ t ≤ hi)
                     else decide (lo ≥ t ∧ t ≥ hi)
      if okRange then Except.ok ({ ct with retractA := ScanAttr.scalar t }, t)
      else Except.error Err.outOfRange
    | Except.error e, _ => Except.error e
    | _, Except.error e => Except.error e
    | _, _ => Except.error Err.typeMismatch

/-- The ZFM2020 conversion factor, 0.2116667 um per count (line 35). -/
def convZFM : ℚ := 2116667 / 10000000

/-- A bound, non-reversed ZFM2020 channel in its post-construction state:
physical limits and scan points at plus or minus 12700 um, idle, current
encoder value 0, controller verbosity off. -/
def chanBase : Chan :=
  { reversed := false
    conv := convZFM
    lowerLim := -12700
    upperLim := 12700
    lowestScan := -12700
    highestScan := 12700
    current := 0
    pending := none
    verbose := false }

/-- World whose requested move sits exactly 5 counts from the current
encoder value. -/
def wDeltaFive : W := { ch := chanBase, dpos := 0, tr := [] }

/-- The um request whose target encoder value is exactly 5. -/
def mvFive : ℚ := 5 * convZFM

/-- World resting 60000 counts below zero, just past the lower scan bound. -/
def wNearLimit : W :=
  { ch := { chanBase with current := -60000 }, dpos := -60000, tr := [] }

/-- Absolute request of -12700.5 um, 2 counts below the current encoder
value of `wNearLimit` and outside the scan bounds. -/
def mvBelow : ℚ := -25401 / 2

/-- World far from the target used for the in-range witnesses. -/
def wThousand : W := { ch := chanBase, dpos := 0, tr := [] }

/-- World whose channel rests at encoder value 100, for `move_zero`. -/
def wMoveZero : W :=
  { ch := { chanBase with current := 100 }, dpos := 100, tr := [] }

/-- Channel with an outstanding move, for the resolution claims. -/
def chanPend : Chan := { chanBase with current := 3, pending := some 7 }

/-- Channel with an outstanding move whose pending target is 0. -/
def chanPendZero : Chan := { chanBase with current := 42, pending := some 0 }

/-- A crafted 12-byte response whose echoed channel byte (byte 6) is 9. -/
def respMismatch : List ℕ := [1, 4, 0, 0, 0, 0, 9, 0, 16, 39, 0, 0]

/-- Controller with ZFM2020 stages bound on the first two channels, in its
post-construction state. -/
def ctBase : Ctrl :=
  { reversed := ⟨false, false, false⟩
    conv := ⟨some convZFM, some convZFM, none⟩
    lowerLim := ⟨some (-12700), some (-12700), none⟩
    upperLim := ⟨some 12700, some 12700, none⟩
    lowestScanA := ScanAttr.list3 ⟨some (-12700), some (-12700), none⟩
    highestScanA := ScanAttr.list3 ⟨some 12700, some 12700, none⟩
    retractA := ScanAttr.list3 ⟨some (12700 - convZFM), some (12700 - convZFM), none⟩ }

lemma truncQ_intCast (e : ℤ) : truncQ (e : ℚ) = e := by
  unfold truncQ
  split
  · exact Int.floor_intCast e
  · rw [show (-(e : ℚ)) = ((-e : ℤ) : ℚ) by push_cast; ring, Int.floor_intCast]
    ring

lemma abs_truncQ_sub_lt (q : ℚ) : |(truncQ q : ℚ) - q| < 1 := by
  unfold truncQ
  split
  · rw [abs_sub_lt_iff]
    constructor
    · linarith [Int.floor_le q]
    · linarith [Int.lt_floor_add_one q]
  · rw [abs_sub_lt_iff]
    push_cast
    constructor
    · linarith [Int.lt_floor_add_one (-q)]
    · linarith [Int.floor_le (-q)]

lemma leUnsigned4_lt (b0 b1 b2 b3 : ℕ) : leUnsigned4 b0 b1 b2 b3 < 2 ^ 32 := by
  unfold leUnsigned4
  omega

lemma toSigned32_spec (n : ℕ) (hn : n < 2 ^ 32) :
    -2 ^ 31 ≤ toSigned32 n ∧ toSigned32 n < 2 ^ 31 ∧
      toSigned32 n % 2 ^ 32 = (n : ℤ) := by
  unfold toSigned32
  have h32 : n % 2 ^ 32 = n := Nat.mod_eq_of_lt hn
  rw [h32]
  split
  · next hlt => refine ⟨?_, ?_, ?_⟩ <;> omega
  · next hge => refine ⟨?_, ?_, ?_⟩ <;> omega

lemma lastPoll_self (p : ℤ) (rest : List ℤ) : lastPoll p p rest = p := by
  cases rest <;> simp [lastPoll]

lemma truncQ_neg (q : ℚ) : truncQ (-q) = -truncQ q := by
  unfold truncQ
  rcases lt_trichotomy q 0 with hq | hq | hq
  · rw [if_pos (by linarith), if_neg (by linarith)]
    simp
  · subst hq
    simp
  · rw [if_neg (by linarith), if_pos (by linarith)]
    simp

lemma truncQ_mul_div_cancel (cv : ℚ) (hne : cv ≠ 0) (e : ℤ) :
    truncQ ((e : ℚ) * cv / cv) = e := by
  rw [mul_div_cancel_right₀ _ hne, truncQ_intCast]

lemma truncQ_roundtrip_le (cv : ℚ) (h : 0 < cv) (v : ℚ) :
    |(truncQ (v / cv) : ℚ) * cv - v| ≤ cv := by
  have habs := abs_truncQ_sub_lt (v / cv)
  have key : (truncQ (v / cv) : ℚ) * cv - v = ((truncQ (v / cv) : ℚ) - v / cv) * cv := by
    field_simp
  rw [key, abs_mul, abs_of_pos h]
  calc |(truncQ (v / cv) : ℚ) - v / cv| * cv ≤ 1 * cv :=
        mul_le_mul_of_nonneg_right (le_of_lt habs) (le_of_lt h)
    _ = cv := one_mul cv

/-- Claim C7: for every configured axis, the um value of an encoder value is
the encoder value times the conversion factor, sign-flipped when the axis is
reversed (negative zero does not exist in the ℚ model of the floats, so the
source's positive-zero normalization is the identity here);
`encoder_value_from_um` inverts it exactly on encoder values (truncation
toward zero with the same sign flip); and the um-to-encoder-to-um round trip
differs from the input by at most one conversion step. -/
theorem conversion_inverse_roundtrip (c : Chan) (e : ℤ) (v : ℚ)
    (h : 0 < c.conv) :
    um_from_encoder_value c e =
      (if c.reversed then -((e : ℚ) * c.conv) else (e : ℚ) * c.conv)
    ∧ encoder_value_from_um c (um_from_encoder_value c e) = e
    ∧ |um_from_encoder_value c (encoder_value_from_um c v) - v| ≤ c.conv := by
  have hne : c.conv ≠ 0 := ne_of_gt h
  refine ⟨by simp [um_from_encoder_value], ?_, ?_⟩
  · unfold um_from_encoder_value encoder_value_from_um
    cases hr : c.reversed
    · simpa using truncQ_mul_div_cancel c.conv hne e
    · simp only [eq_self_iff_true, if_true, add_zero]
      rw [neg_div, truncQ_neg, truncQ_mul_div_cancel c.conv hne e]
      ring
  · unfold um_from_encoder_value encoder_value_from_um
    cases hr : c.reversed
    · simpa using truncQ_roundtrip_le c.conv h v
    · simp only [eq_self_iff_true, if_true, add_zero]
      push_cast
      simpa [neg_mul, neg_neg] using truncQ_roundtrip_le c.conv h v

/-- Witness for C7 at a concrete ZFM2020 channel. -/
theorem conversion_inverse_roundtrip_witness :
    (0 : ℚ) < chanBase.conv ∧
      encoder_value_from_um chanBase (um_from_encoder_value chanBase 7) = 7 :=
  ⟨by decide, (conversion_inverse_roundtrip chanBase 7 3 (by decide)).2.1⟩

/-- Claim C3: moves are never pipelined — issuing a move while a pending
target is outstanding first resolves the outstanding move, so all of the
resolution's query frames precede the new move frame and the state in which
the move frame is written is idle; and whenever a move resolves (the
confirmed encoder equals the pending target, or the deadline elapses with
the read list exhausted) the pending target resets to None and the current
encoder value is set from the last device read. -/
theorem moves_never_pipelined (c : Chan) (p tgt : ℤ) (block : Bool)
    (fst1 fst2 : ℤ) (rest1 rest2 : List ℤ) (h : c.pending = some p) :
    (move_to_encoder_value c tgt block fst1 rest1 fst2 rest2).2 =
        List.replicate (pollCount p fst1 rest1) Cmd.query ++ [Cmd.move tgt] ++
        (if block then List.replicate (pollCount tgt fst2 rest2) Cmd.query else [])
    ∧ (finish_move c fst1 rest1).1.pending = none
    ∧ (finish_move c fst1 rest1).1.current = lastPoll p fst1 rest1
    ∧ (fst1 = p → (finish_move c fst1 rest1).1.current = p) := by
  have hs : c.pending.isSome = true := by rw [h]; rfl
  refine ⟨?_, ?_, ?_, ?_⟩
  · cases block <;> simp [move_to_encoder_value, hs, finish_move, h]
  · simp [finish_move, h]
  · simp [finish_move, h]
  · intro hf
    simp [finish_move, h, hf, lastPoll_self]

/-- Witness for C3: outstanding pending target 7, new target 9, first read
already confirms the outstanding move. -/
theorem moves_never_pipelined_witness :
    (move_to_encoder_value chanPend 9 false 7 [] 0 []).2 =
        List.replicate (pollCount 7 7 []) Cmd.query ++ [Cmd.move 9] ++
        (if false then List.replicate (pollCount 9 0 []) Cmd.query else [])
    ∧ (finish_move chanPend 7 []).1.pending = none
    ∧ (finish_move chanPend 7 []).1.current = lastPoll 7 7 []
    ∧ ((7 : ℤ) = 7 → (finish_move chanPend 7 []).1.current = 7) :=
  moves_never_pipelined chanPend 7 9 false 7 0 [] [] rfl

/-- Claim C8: for a position read with a move outstanding, a response whose
echoed channel byte (byte 6) does not equal the requested channel index
fails with ProtocolMismatch and produces no updated state (so the current
encoder value is not updated); on a matching echo the decoded encoder value
is the last four response bytes read as a little-endian signed 32-bit
integer (the decoded value is the unique integer in [-2^31, 2^31) congruent
to the little-endian byte value mod 2^32). -/
theorem protocol_echo_guard (c : Chan) (chIdx : ℕ) (resp : List ℕ) (p : ℤ)
    (h : c.pending = some p) :
    (resp.getD 6 0 % 256 ≠ chIdx % 256 →
      finish_move_resp c chIdx resp = Except.error Err.protocolMismatch ∧
      ∀ c' trc, finish_move_resp c chIdx resp ≠ Except.ok (c', trc))
    ∧ (resp.getD 6 0 % 256 = chIdx % 256 →
      decode_position_response resp chIdx =
        Except.ok (toSigned32 (leUnsigned4 (resp.getD 8 0) (resp.getD 9 0)
          (resp.getD 10 0) (resp.getD 11 0)))
      ∧ -2 ^ 31 ≤ toSigned32 (leUnsigned4 (resp.getD 8 0) (resp.getD 9 0)
          (resp.getD 10 0) (resp.getD 11 0))
      ∧ toSigned32 (leUnsigned4 (resp.getD 8 0) (resp.getD 9 0)
          (resp.getD 10 0) (resp.getD 11 0)) < 2 ^ 31
      ∧ toSigned32 (leUnsigned4 (resp.getD 8 0) (resp.getD 9 0)
          (resp.getD 10 0) (resp.getD 11 0)) % 2 ^ 32 =
          (leUnsigned4 (resp.getD 8 0) (resp.getD 9 0) (resp.getD 10 0)
            (resp.getD 11 0) : ℤ)) := by
  constructor
  · intro hne
    have hd : decode_position_response resp chIdx = Except.error Err.protocolMismatch := by
      unfold decode_position_response
      rw [if_neg hne]
    constructor
    · simp [finish_move_resp, h, hd]
    · intro c' trc hc
      simp [finish_move_resp, h, hd] at hc
  · intro heq
    have hd : decode_position_response resp chIdx =
        Except.ok (toSigned32 (leUnsigned4 (resp.getD 8 0) (resp.getD 9 0)
          (resp.getD 10 0) (resp.getD 11 0))) := by
      unfold decode_position_response
      rw [if_pos heq]
    refine ⟨hd, ?_, ?_, ?_⟩ <;>
      have hs := toSigned32_spec _
        (leUnsigned4_lt (resp.getD 8 0) (resp.getD 9 0) (resp.getD 10 0) (resp.getD 11 0))
    · exact hs.1
    · exact hs.2.1
    · exact hs.2.2

/-- Witness for C8: a crafted response echoing channel 9 on a request for
channel 0 fails with ProtocolMismatch. -/
theorem protocol_echo_guard_witness :
    finish_move_resp chanPend 0 respMismatch = Except.error Err.protocolMismatch :=
  ((protocol_echo_guard chanPend 0 respMismatch 7 rfl).1 (by decide)).1

/-- Claim C9: in `legalize_move_um` and `_check_min_motion` the pending
encoder value is tested for truthiness rather than against None, so a
pending target of exactly 0 is treated as no outstanding move: for a
relative move the new absolute target encoder value is the requested delta
plus the CURRENT encoder value (not plus the pending value), and the
minimum-motion comparison base is the current encoder value as well. -/
theorem pending_zero_truthiness (c : Chan) (mv : ℚ) (h : c.pending = some 0) :
    absTarget c mv true = encoder_value_from_um c mv + c.current
    ∧ minBase c = c.current := by
  constructor <;> simp [absTarget, minBase, optIntTruthy, h]

/-- Witness for C9 at a channel with pending target 0 and current encoder
value 42. -/
theorem pending_zero_truthiness_witness :
    absTarget chanPendZero 3 true = encoder_value_from_um chanPendZero 3 + 42
    ∧ minBase chanPendZero = 42 :=
  pending_zero_truthiness chanPendZero 3 rfl

/-- Claim C10: an explicit limit of 0.0 passed to `set_stage_limit_um`, and
an explicit retract position of 0.0 passed to `set_retract_point_um`, are
tested for truthiness and therefore behave exactly as an omitted argument:
the candidate value is taken from the current position read instead. -/
theorem zero_explicit_treated_as_omitted (ct : Ctrl) (i : Fin 3)
    (lower rel : Bool) (posRead : ℤ) :
    set_stage_limit_um ct i lower (some 0) posRead =
      set_stage_limit_um ct i lower none posRead
    ∧ set_retract_point_um ct i (some 0) rel posRead =
      set_retract_point_um ct i none rel posRead := by
  constructor <;> simp [set_stage_limit_um, set_retract_point_um, optQTruthy]

/-- Claim C1 (amended): for every configured channel, when a move is
legalized, (a) a target whose delta from the current (or truthy-pending)
encoder value is exactly 0 makes `legalize_move_um` return None with the
world unchanged — no device write occurs; (b) a non-zero delta of AT MOST 5
counts (the half-open interval (0, 5] — the source compares with
`<= self._min_encoder_motion`) makes the controller first perform the
throwaway 10 um relative nudge move and then proceed, still with the
original target; (c) a delta of MORE than 5 counts proceeds without a nudge,
and (d)-(e) in both proceeding cases the move legalizes to the um value of
the original target encoder value when that value passes the bounds
check. -/
theorem min_motion_guard (fuel : ℕ) (w w1 : W) (mv : ℚ) (rel : Bool)
    (rr : Option ℚ) :
    (absTarget w.ch mv rel = minBase w.ch →
      legalize_move_um fuel w mv rel = (w, Except.ok none))
    ∧ (absTarget w.ch mv rel ≠ minBase w.ch →
      |absTarget w.ch mv rel - minBase w.ch| ≤ min_encoder_motion →
      move_um fuel w 10 true true false = (w1, Except.ok rr) →
      check_min_motion fuel w (absTarget w.ch mv rel) = (w1, Except.ok true))
    ∧ (min_encoder_motion < |absTarget w.ch mv rel - minBase w.ch| →
      check_min_motion fuel w (absTarget w.ch mv rel) = (w, Except.ok true))
    ∧ (min_encoder_motion < |absTarget w.ch mv rel - minBase w.ch| →
      withinBounds w.ch (um_from_encoder_value w.ch (absTarget w.ch mv rel)) = true →
      legalize_move_um fuel w mv rel =
        (w, Except.ok (some (um_from_encoder_value w.ch (absTarget w.ch mv rel)))))
    ∧ (absTarget w.ch mv rel ≠ minBase w.ch →
      |absTarget w.ch mv rel - minBase w.ch| ≤ min_encoder_motion →
      move_um fuel w 10 true true false = (w1, Except.ok rr) →
      withinBounds w1.ch (um_from_encoder_value w1.ch (absTarget w.ch mv rel)) = true →
      legalize_move_um fuel w mv rel =
        (w1, Except.ok (some (um_from_encoder_value w1.ch (absTarget w.ch mv rel))))) := by
  refine ⟨?_, ?_, ?_, ?_, ?_⟩
  · intro h0
    simp [legalize_move_um, legalize_move_um_core, check_min_motion_core, h0]
  · intro h1 h2 h3
    simp [check_min_motion, check_min_motion_core, h1, h2, h3]
  · intro h5
    have h1 : absTarget w.ch mv rel ≠ minBase w.ch := by
      intro hEq
      rw [hEq, sub_self, abs_zero] at h5
      exact absurd h5 (by decide)
    have h2 : ¬(|absTarget w.ch mv rel - minBase w.ch| ≤ min_encoder_motion) :=
      not_le.mpr h5
    simp [check_min_motion, check_min_motion_core, h1, h2]
  · intro h5 hb
    have h1 : absTarget w.ch mv rel ≠ minBase w.ch := by
      intro hEq
      rw [hEq, sub_self, abs_zero] at h5
      exact absurd h5 (by decide)
    have h2 : ¬(|absTarget w.ch mv rel - minBase w.ch| ≤ min_encoder_motion) :=
      not_le.mpr h5
    simp [legalize_move_um, legalize_move_um_core, check_min_motion_core, h1, h2, hb]
  · intro h1 h2 h3 hb
    simp [legalize_move_um, legalize_move_um_core, check_min_motion_core,
      h1, h2, h3, hb]

/-- Witness for C1 at a delta of 4724 counts (absolute request of 1000 um
from encoder value 0): no nudge, and the move legalizes to the um value of
encoder target 4724. -/
theorem min_motion_guard_witness :
    min_encoder_motion < |absTarget wThousand.ch 1000 false - minBase wThousand.ch|
    ∧ legalize_move_um 2 wThousand 1000 false =
        (wThousand, Except.ok (some (um_from_encoder_value wThousand.ch
          (absTarget wThousand.ch 1000 false)))) :=
  ⟨by decide,
    (min_motion_guard 2 wThousand wThousand 1000 false none).2.2.2.1
      (by decide) (by decide)⟩

/-- Counterexample to C1 as stated: at a delta of EXACTLY 5 counts (absolute
request of 5 conversion steps from encoder value 0) the claim says the move
proceeds without a nudge, yet legalizing writes the throwaway nudge move
frame (target 47 = 10 um) followed by its settling query before returning
the original target's um value. -/
theorem min_motion_guard_cex :
    absTarget wDeltaFive.ch mvFive false - minBase wDeltaFive.ch = 5
    ∧ (legalize_move_um 2 wDeltaFive mvFive false).1.tr = [Cmd.move 47, Cmd.query]
    ∧ (legalize_move_um 2 wDeltaFive mvFive false).2 =
        Except.ok (some (um_from_encoder_value wDeltaFive.ch 5)) := by decide

/-- Claim C2 (amended): a move request that is rejected as out of range is
rejected before any byte is written, with the current and pending encoder
values unchanged, PROVIDED its target's delta from the current/pending
encoder value does not trigger the minimum-motion nudge (delta of more than
5 counts — which covers the claim's example of an absolute move to
`upper_limit_um + 1 conversion step` issued from a position away from the
limit): the whole world, trace included, is returned unchanged alongside
OutOfRange.  When a small non-zero delta triggers a nudge that is itself in
range, the nudge writes to the device and updates the current encoder value
before the rejection (see the counterexample). -/
theorem reject_out_of_range_clean (fuel : ℕ) (w : W) (mv : ℚ) (rel : Bool)
    (h5 : min_encoder_motion < |absTarget w.ch mv rel - minBase w.ch|)
    (hout : withinBounds w.ch (um_from_encoder_value w.ch (absTarget w.ch mv rel)) = false) :
    legalize_move_um fuel w mv rel = (w, Except.error Err.outOfRange) := by
  have h1 : absTarget w.ch mv rel ≠ minBase w.ch := by
    intro hEq
    rw [hEq, sub_self, abs_zero] at h5
    exact absurd h5 (by decide)
  have h2 : ¬(|absTarget w.ch mv rel - minBase w.ch| ≤ min_encoder_motion) :=
    not_le.mpr h5
  simp [legalize_move_um, legalize_move_um_core, check_min_motion_core, h1, h2, hout]

/-- Witness for C2: an absolute request of 13000 um (beyond the 12700 um
limit) from encoder value 0 is rejected with the world untouched. -/
theorem reject_out_of_range_clean_witness :
    min_encoder_motion < |absTarget wThousand.ch 13000 false - minBase wThousand.ch|
    ∧ withinBounds wThousand.ch
        (um_from_encoder_value wThousand.ch (absTarget wThousand.ch 13000 false)) = false
    ∧ legalize_move_um 2 wThousand 13000 false = (wThousand, Except.error Err.outOfRange) :=
  ⟨by decide, by decide,
    reject_out_of_range_clean 2 wThousand 13000 false (by decide) (by decide)⟩

/-- Counterexample to C2 as stated: from encoder value -60000 (just past the
lower scan bound) an absolute request of -12700.5 um has target encoder
value -60002, a delta of 2 counts, so the minimum-motion nudge fires first:
the request IS rejected as out of range, yet a move frame (the 10 um nudge
to encoder value -59953) and its settling query were written and the
confirmed current encoder value changed before the rejection. -/
theorem reject_out_of_range_cex :
    wNearLimit.ch.current = -60000
    ∧ (legalize_move_um 2 wNearLimit mvBelow false).2 = Except.error Err.outOfRange
    ∧ (legalize_move_um 2 wNearLimit mvBelow false).1.tr = [Cmd.move (-59953), Cmd.query]
    ∧ (legalize_move_um 2 wNearLimit mvBelow false).1.ch.current = -59953 := by decide

/-- Claim C6 is a code bug: `move_zero` from encoder value 100 legalizes the
absolute 0 um move to the float 0.0, which `move_um`'s `if not
legal_move_um:` treats as falsy, so the call returns "already in position"
with the world unchanged — no move frame targeting encoder value 0 is ever
written, although the current encoder value (100) differs from the encoder
target for 0 um (0). -/
theorem move_zero_returns_without_moving :
    move_zero 2 wMoveZero true = (wMoveZero, Except.ok none)
    ∧ encoder_value_from_um wMoveZero.ch 0 = 0
    ∧ wMoveZero.ch.current = 100
    ∧ wMoveZero.tr = [] := by decide

/-- Claim C4 is a code bug: a successful `set_stage_limit_um` call on the
first channel assigns the scalar to the WHOLE scan-point attribute
(source line 447), destroying the other channels' scan bounds: before the
call the second channel's lowest scan point reads -12700, afterwards the
attribute is the bare float 100 and any indexed read of it fails. -/
theorem set_stage_limit_clobbers_scan_list :
    set_stage_limit_um ctBase 0 true (some 100) 0 =
      Except.ok ({ ctBase with lowestScanA := ScanAttr.scalar 100 }, 100)
    ∧ ctBase.lowestScanA.index 1 = Except.ok (some (-12700))
    ∧ ({ ctBase with lowestScanA := ScanAttr.scalar 100 } : Ctrl).lowestScanA.index 1 =
        Except.error Err.typeMismatch := by decide

/-- Claim C5 is a code bug: on a non-reversed axis with scan bounds
[-12700, 12700], `set_retract_point_um` rejects the in-range target 100 um
with OutOfRange, because its direction branches are the reverse of the
convention used everywhere else (the non-reversed branch asserts
`lowest >= target >= highest`, source lines 504-506). -/
theorem set_retract_point_rejects_in_range :
    set_retract_point_um ctBase 0 (some 100) false 0 = Except.error Err.outOfRange
    ∧ ctBase.reversed.get 0 = false
    ∧ ctBase.lowestScanA.index 0 = Except.ok (some (-12700))
    ∧ ctBase.highestScanA.index 0 = Except.ok (some 12700)
    ∧ ((-12700 : ℚ) ≤ 100 ∧ (100 : ℚ) ≤ 12700) := by decide
